import Mathlib

/-!
# SERQ native backend — verification of the log bridge and secret store

This development embeds the two core components of the SERQ desktop backend
(`src-tauri/src/commands/debug_bridge.rs` and `src-tauri/src/commands/ai.rs`)
as executable Lean definitions and proves the specified properties about them.

Modelling conventions:
* JSON values (`serde_json::Value`) are the inductive `Json`; the external
  JSON parser (`serde_json::from_str`) is abstracted as an `Except String Json`
  input, since the parser is third-party library code, not repository code.
* File bytes are `List Nat` (each element `< 256` for real files); Rust
  `String`/`str` byte offsets, the byte search for `'\n'` (byte `10`) and the
  UTF-8 char-boundary check of slicing are modelled at the byte level.
* Fallible platform operations (env lookup, open, write, metadata, read) are
  driven by an explicit fault oracle `FsFaults`: `none` means the operation
  succeeds, `some e` means it fails with underlying cause text `e`.
* A Rust panic (process abort) is the distinguished outcome
  `CmdResult.panicked`, distinct from every `Result` value the code returns.
-/

namespace SERQ

/-- `serde_json::Value`. Numbers are irrelevant to the log bridge (only
`as_str` is ever applied), so they are carried as `Int`. `obj` models the
parsed JSON map, whose keys are unique after parsing. -/
inductive Json where
  | null
  | bool (b : Bool)
  | num (n : Int)
  | str (s : String)
  | arr (elems : List Json)
  | obj (fields : List (String × Json))

/-- `Value::index` (`parsed["key"]`): field lookup on objects, `Null` for a
missing key and for every non-object value. -/
def Json.index (j : Json) (key : String) : Json :=
  match j with
  | .obj fields =>
    match fields.find? (fun p => p.1 == key) with
    | some p => p.2
    | none => .null
  | _ => .null

/-- `Value::as_str`: `Some` exactly on JSON strings. -/
def Json.asStr : Json → Option String
  | .str s => some s
  | _ => none

/-- Character-wise ASCII uppercasing, modelling `str::to_uppercase` on the
short ASCII level tags the bridge receives. -/
def strToUpper (s : String) : String := ⟨s.data.map Char.toUpper⟩

/-- Split a character list at `'\n'` separators (every list returned is one
segment between newlines; the result is always non-empty). -/
def splitNl : List Char → List (List Char)
  | [] => [[]]
  | c :: cs =>
    if c = '\n' then [] :: splitNl cs
    else
      match splitNl cs with
      | [] => [[c]]
      | seg :: segs => (c :: seg) :: segs

/-- Remove one trailing `'\r'`, used for segments that were terminated by a
`'\n'` (so that `"\r\n"` line endings are recognised). -/
def stripTrailingCr (l : List Char) : List Char :=
  if l.getLast? = some '\r' then l.dropLast else l

/-- `str::lines`: split at `'\n'`, treat `"\r\n"` as a line ending, and do not
produce a final empty line for a trailing line terminator.  A final segment
not terminated by `'\n'` keeps a trailing `'\r'`, exactly as in Rust. -/
def rustLines (s : String) : List String :=
  match (splitNl s.data).reverse with
  | [] => []
  | lastSeg :: revInit =>
    let pre := revInit.reverse.map (fun l => String.mk (stripTrailingCr l))
    if lastSeg.isEmpty then pre else pre ++ [String.mk lastSeg]

/-- The entry formatting of `debug_bridge_log`, verbatim from the source:
`[timestamp] LEVEL: message`, then `\n  at source` when `source` is a string,
then `\n  line` for every line of `stack` when `stack` is a string, then a
final `'\n'`. -/
def renderEntry (parsed : Json) : String :=
  let level := ((parsed.index "level").asStr).getD "log"
  let message := ((parsed.index "message").asStr).getD ""
  let timestamp := ((parsed.index "timestamp").asStr).getD ""
  let source := (parsed.index "source").asStr
  let stack := (parsed.index "stack").asStr
  let line := "[" ++ timestamp ++ "] " ++ strToUpper level ++ ": " ++ message
  let line :=
    match source with
    | some src => line ++ "\n  at " ++ src
    | none => line
  let line :=
    match stack with
    | some st => (rustLines st).foldl (fun acc l => acc ++ "\n  " ++ l) line
    | none => line
  line ++ "\n"

/-- Join a list of lines with single `'\n'` separators. -/
def joinLines : List String → String
  | [] => ""
  | [l] => l
  | l :: l' :: ls => l ++ "\n" ++ joinLines (l' :: ls)

/-- The entry format as the specification words it: a first line
`[<timestamp>] <LEVEL-UPPERCASED>: <message>` (with the stated defaults),
then a line `  at <source>` if source is present, then one line per line of
the stack text each prefixed with two spaces, the lines joined by newlines
and the whole entry terminated by exactly one trailing newline. -/
def renderEntrySpec (parsed : Json) : String :=
  let level := ((parsed.index "level").asStr).getD "log"
  let message := ((parsed.index "message").asStr).getD ""
  let timestamp := ((parsed.index "timestamp").asStr).getD ""
  let source := (parsed.index "source").asStr
  let stack := (parsed.index "stack").asStr
  let firstLine := "[" ++ timestamp ++ "] " ++ strToUpper level ++ ": " ++ message
  let sourceLines :=
    match source with
    | some src => ["  at " ++ src]
    | none => []
  let stackLines :=
    match stack with
    | some st => (rustLines st).map (fun l => "  " ++ l)
    | none => []
  joinLines (firstLine :: (sourceLines ++ stackLines)) ++ "\n"

/-- UTF-8 encoding of one character, as byte values. -/
def utf8EncodeCharNat (c : Char) : List Nat :=
  let v := c.toNat
  if v < 128 then [v]
  else if v < 2048 then [192 + v / 64, 128 + v % 64]
  else if v < 65536 then [224 + v / 4096, 128 + v / 64 % 64, 128 + v % 64]
  else [240 + v / 262144, 128 + v / 4096 % 64, 128 + v / 64 % 64, 128 + v % 64]

/-- The bytes of a string, as written by `write_all(line.as_bytes())`. -/
def utf8Bytes (s : String) : List Nat := s.data.flatMap utf8EncodeCharNat

/-- One MiB, the retained-suffix size of rotation. -/
def MB : Nat := 1024 * 1024

/-- Five MiB, the rotation ceiling (`5 * 1024 * 1024`). -/
def SIZE_LIMIT : Nat := 5 * 1024 * 1024

/-- A UTF-8 continuation byte (`0x80..=0xBF`). -/
def isContinuationByte (b : Nat) : Bool := decide (128 ≤ b ∧ b < 192)

/-- `str::is_char_boundary` at an index `i ≤ length`: true at the end of the
string and wherever the byte is not a continuation byte.  Rust slicing
`&content[i..]` panics exactly when this is false. -/
def isCharBoundary (content : List Nat) (i : Nat) : Bool :=
  match content[i]? with
  | none => true
  | some b => !(isContinuationByte b)

/-- Byte index of the first `10` (`'\n'`), modelling `str::find('\n')` at the
byte level (in valid UTF-8, byte `10` occurs exactly at the char `'\n'`). -/
def findNewline : List Nat → Option Nat
  | [] => none
  | b :: bs => if b = 10 then some 0 else (findNewline bs).map (· + 1)

/-- Outcome of the rotate-if-oversized step. -/
inductive RotOutcome where
  | noRotate
  | panic
  | rotated (retained : List Nat)
deriving DecidableEq, Repr

/-- The local `keep_from` of the rotation block:
`content.len().saturating_sub(1024 * 1024)`. -/
def rotKeepFrom (content : List Nat) : Nat := content.length - MB

/-- The local `start` of the rotation block:
`content[keep_from..].find('\n').map(|i| keep_from + i + 1).unwrap_or(keep_from)`. -/
def rotStart (content : List Nat) : Nat :=
  ((findNewline (content.drop (rotKeepFrom content))).map
    (fun i => rotKeepFrom content + i + 1)).getD (rotKeepFrom content)

/-- The rotation block of `debug_bridge_log`: no action at or below the 5 MiB
ceiling; above it, keep from `keep_from`, advanced past the next newline when
one exists (`unwrap_or(keep_from)` otherwise), and rewrite the file with the
retained suffix.  Slicing `&content[keep_from..]` panics when `keep_from` is
not a char boundary. -/
def rotateStep (content : List Nat) : RotOutcome :=
  if content.length ≤ SIZE_LIMIT then .noRotate
  else if isCharBoundary content (rotKeepFrom content) then
    .rotated (content.drop (rotStart content))
  else .panic

/-- The log file: `none` when absent on disk, `some bytes` when present. -/
structure FsState where
  file : Option (List Nat)
deriving DecidableEq, Repr

/-- Fault oracle for the platform operations of one `debug_bridge_log` call:
`none` = the operation succeeds, `some e` = it fails with cause text `e`. -/
structure FsFaults where
  homeErr : Option String
  openErr : Option String
  writeErr : Option String
  metadataErr : Option String
  readErr : Option String
  rewriteErr : Option String
deriving DecidableEq, Repr

/-- All platform operations succeed. -/
def noFaults : FsFaults := ⟨none, none, none, none, none, none⟩

/-- Result of one command invocation.  `panicked` models a Rust panic
(process abort), which is not a returned `Result` value. -/
inductive CmdResult where
  | ok
  | err (msg : String)
  | panicked
deriving DecidableEq, Repr

/-- `debug_bridge_log`, step by step from the source: resolve `HOME`, parse
the payload (`payload` is the abstracted `serde_json::from_str` result),
render the entry, open for append (creating the file), append the rendered
bytes, read the size, and rotate when strictly above 5 MiB.  Error strings
carry the prefixes the source attaches (`map_err`). -/
def debug_bridge_log (payload : Except String Json) (faults : FsFaults)
    (st : FsState) : CmdResult × FsState :=
  match faults.homeErr with
  | some e => (.err e, st)
  | none =>
    match payload with
    | .error e => (.err e, st)
    | .ok parsed =>
      let line := renderEntry parsed
      match faults.openErr with
      | some e => (.err ("Failed to open log file: " ++ e), st)
      | none =>
        let content0 := st.file.getD []
        match faults.writeErr with
        | some e => (.err ("Failed to write to log file: " ++ e), ⟨some content0⟩)
        | none =>
          let content1 := content0 ++ utf8Bytes line
          match faults.metadataErr with
          | some e => (.err e, ⟨some content1⟩)
          | none =>
            if content1.length ≤ SIZE_LIMIT then (.ok, ⟨some content1⟩)
            else
              match faults.readErr with
              | some e => (.err e, ⟨some content1⟩)
              | none =>
                match rotateStep content1 with
                | .noRotate => (.ok, ⟨some content1⟩)
                | .panic => (.panicked, ⟨some content1⟩)
                | .rotated r =>
                  match faults.rewriteErr with
                  | some e => (.err e, ⟨some content1⟩)
                  | none => (.ok, ⟨some r⟩)

/-- `debug_bridge_clear`: overwrite the log file with the empty byte
sequence (`fs::write(path, "")`). -/
def debug_bridge_clear (homeErr writeErr : Option String) (st : FsState) :
    CmdResult × FsState :=
  match homeErr with
  | some e => (.err e, st)
  | none =>
    match writeErr with
    | some e => (.err e, st)
    | none => (.ok, ⟨some []⟩)

/-- The file contents produced by a sequence of successful appends starting
from an empty (or absent) log file. -/
def logContents (entries : List Json) : List Nat :=
  (entries.map (fun e => utf8Bytes (renderEntry e))).flatten

/-- One read of the secure-store capability for the fixed
`(SERVICE, KEY_NAME)` slot: `keyring().get` returns the stored string, the
distinguished `Error::NoEntry`, or another error with cause text. -/
inductive KeyringReadResult where
  | ok (value : String)
  | noEntry
  | err (msg : String)
deriving DecidableEq, Repr

/-- `get_api_key`, verbatim from the source: empty string normalised to
`None`, `NoEntry` is `Ok(None)`, other capability errors are surfaced with
the embedded cause. -/
def get_api_key (read : KeyringReadResult) : Except String (Option String) :=
  match read with
  | .ok key => if key = "" then .ok none else .ok (some key)
  | .noEntry => .ok none
  | .err e => .error ("Failed to retrieve API key: " ++ e)

/-- `has_api_key`, verbatim from the source: `Ok(!key.is_empty())` on a
successful read, `Ok(false)` on `NoEntry`, other errors surfaced. -/
def has_api_key (read : KeyringReadResult) : Except String Bool :=
  match read with
  | .ok key => .ok (!(key == ""))
  | .noEntry => .ok false
  | .err e => .error ("Failed to check API key: " ++ e)

/-- The state of the underlying capability's single
`(SERVICE, KEY_NAME)` slot: `none` = no record exists. -/
def KeyringState := Option String

/-- The capability's write, storing the value verbatim
(`keyring().set(SERVICE, KEY_NAME, &key)` on a conforming backend). -/
def keyringSet (st : KeyringState) (value : String) : KeyringState :=
  let _ := st
  some value

/-- The capability's read: the stored value verbatim, or `NoEntry`. -/
def keyringRead (st : KeyringState) : KeyringReadResult :=
  match st with
  | some v => .ok v
  | none => .noEntry

/-- `set_api_key`: delegates to the capability write for the fixed slot. -/
def set_api_key (st : KeyringState) (key : String) :
    Except String Unit × KeyringState :=
  (.ok (), keyringSet st key)

/-- A six-MiB message string, used to drive one append over the ceiling. -/
def bigMessage : String := ⟨List.replicate 6291456 'a'⟩

/-- A concrete log event whose single append pushes the file over 5 MiB. -/
def bigEvent : Json := Json.obj [("message", Json.str bigMessage)]

/-- Pre-existing log content of `5 MiB - 8` bytes, valid UTF-8, arranged so
that after one 9-byte append the rotation cut point `len - 1 MiB` lands on
the second (continuation) byte of the two-byte character `é`. -/
def continuationSplitFile : List Nat :=
  List.replicate 4194304 97 ++ 195 :: 169 :: (List.replicate 1048565 97 ++ [10])

/-- A small fully-populated log event, used as a concrete witness input. -/
def exEvent : Json :=
  Json.obj [("level", .str "info"), ("message", .str "hi"),
    ("timestamp", .str "T1"), ("source", .str "f.ts:1"), ("stack", .str "l1\nl2")]

/-! ## Helper lemmas on strings and rendering -/

theorem strData_append (a b : String) : (a ++ b).data = a.data ++ b.data := by
  cases a; cases b; rfl

theorem strAppend_assoc (a b c : String) : a ++ b ++ c = a ++ (b ++ c) := by
  cases a with | mk la =>
  cases b with | mk lb =>
  cases c with | mk lc =>
  show String.mk (la ++ lb ++ lc) = String.mk (la ++ (lb ++ lc))
  rw [List.append_assoc]

theorem nl_glue (x a b : String) : x ++ ("\n" ++ a) ++ b = x ++ "\n" ++ (a ++ b) := by
  simp [strAppend_assoc]

theorem joinLines_glue (x y : String) (t : List String) :
    joinLines ((x ++ "\n" ++ y) :: t) = x ++ "\n" ++ joinLines (y :: t) := by
  cases t with
  | nil => rfl
  | cons a t =>
    show x ++ "\n" ++ y ++ "\n" ++ joinLines (a :: t) =
      x ++ "\n" ++ (y ++ "\n" ++ joinLines (a :: t))
    simp [strAppend_assoc]

theorem foldl_indent (ls : List String) (x : String) :
    ls.foldl (fun acc l => acc ++ "\n  " ++ l) x =
      joinLines (x :: ls.map (fun l => "  " ++ l)) := by
  induction ls generalizing x with
  | nil => rfl
  | cons l ls ih =>
    rw [List.foldl_cons, ih, List.map_cons]
    rw [show x ++ "\n  " ++ l = x ++ ("\n" ++ "  ") ++ l from rfl, nl_glue, joinLines_glue]
    rfl

theorem assemble_eq (fl : String) (src stk : Option String) :
    (let line := fl;
     let line :=
       match src with
       | some s => line ++ "\n  at " ++ s
       | none => line;
     let line :=
       match stk with
       | some st => (rustLines st).foldl (fun acc l => acc ++ "\n  " ++ l) line
       | none => line;
     line ++ "\n") =
    joinLines (fl ::
      ((match src with
        | some s => ["  at " ++ s]
        | none => []) ++
       (match stk with
        | some st => (rustLines st).map (fun l => "  " ++ l)
        | none => []))) ++ "\n" := by
  cases src with
  | none =>
    cases stk with
    | none => rfl
    | some st =>
      show (rustLines st).foldl (fun acc l => acc ++ "\n  " ++ l) fl ++ "\n" = _
      rw [foldl_indent]
      rfl
  | some s =>
    cases stk with
    | none =>
      show fl ++ "\n  at " ++ s ++ "\n" = _
      rw [show ("\n  at " : String) = "\n" ++ "  at " from rfl, nl_glue]
      rfl
    | some st =>
      show (rustLines st).foldl (fun acc l => acc ++ "\n  " ++ l)
          (fl ++ "\n  at " ++ s) ++ "\n" = _
      rw [foldl_indent]
      rw [show ("\n  at " : String) = "\n" ++ "  at " from rfl, nl_glue,
        joinLines_glue]
      rfl

theorem utf8Bytes_append (a b : String) :
    utf8Bytes (a ++ b) = utf8Bytes a ++ utf8Bytes b := by
  simp [utf8Bytes, strData_append]

theorem renderEntry_concat (p : Json) : ∃ t, renderEntry p = t ++ "\n" := ⟨_, rfl⟩

theorem utf8_renderEntry_last (p : Json) :
    (utf8Bytes (renderEntry p)).getLast? = some 10 := by
  obtain ⟨t, ht⟩ := renderEntry_concat p
  rw [ht, utf8Bytes_append, show utf8Bytes "\n" = [10] from rfl]
  exact List.getLast?_concat _

theorem logContents_cons (e : Json) (es : List Json) :
    logContents (e :: es) = utf8Bytes (renderEntry e) ++ logContents es := by
  simp [logContents]

theorem logContents_last (es : List Json) (h : logContents es ≠ []) :
    (logContents es).getLast? = some 10 := by
  induction es with
  | nil => exact absurd rfl h
  | cons e es ih =>
    rw [logContents_cons, List.getLast?_append]
    by_cases h2 : logContents es = []
    · rw [h2]
      show Option.or none _ = some 10
      rw [Option.none_or]
      exact utf8_renderEntry_last e
    · rw [ih h2]; rfl

/-! ## Helper lemmas on `findNewline` and `rotateStep` -/

theorem findNewline_none (l : List Nat) (h : findNewline l = none) :
    ∀ b ∈ l, b ≠ 10 := by
  induction l with
  | nil => simp
  | cons x xs ih =>
    simp only [findNewline] at h
    by_cases hx : x = 10
    · rw [if_pos hx] at h; simp at h
    · rw [if_neg hx] at h
      intro b hb
      rcases List.mem_cons.mp hb with rfl | hb2
      · exact hx
      · exact ih (Option.map_eq_none'.mp h) b hb2

theorem findNewline_some (l : List Nat) (i : Nat) (h : findNewline l = some i) :
    l[i]? = some 10 ∧ ∀ j, j < i → l[j]? ≠ some 10 := by
  induction l generalizing i with
  | nil => simp [findNewline] at h
  | cons x xs ih =>
    simp only [findNewline] at h
    by_cases hx : x = 10
    · rw [if_pos hx] at h
      obtain rfl : 0 = i := Option.some.inj h
      subst hx
      exact ⟨by simp, fun j hj => absurd hj (Nat.not_lt_zero j)⟩
    · rw [if_neg hx] at h
      cases hfx : findNewline xs with
      | none => rw [hfx] at h; simp at h
      | some i0 =>
        rw [hfx] at h
        simp only [Option.map_some'] at h
        obtain rfl : i0 + 1 = i := Option.some.inj h
        obtain ⟨h1, h2⟩ := ih i0 hfx
        refine ⟨by simpa using h1, fun j hj => ?_⟩
        cases j with
        | zero => simpa using hx
        | succ j0 =>
          have := h2 j0 (by omega)
          simpa using this

theorem findNewline_of_mem (l : List Nat) (h : 10 ∈ l) :
    ∃ i, findNewline l = some i := by
  cases hf : findNewline l with
  | none => exact absurd rfl (findNewline_none l hf 10 h)
  | some i => exact ⟨i, rfl⟩

theorem getLast?_drop_of_ne_nil (l : List Nat) (n : Nat) (h : l.drop n ≠ []) :
    (l.drop n).getLast? = l.getLast? := by
  conv_rhs => rw [← List.take_append_drop n l]
  rw [List.getLast?_append]
  cases hg : (l.drop n).getLast? with
  | none => exact absurd (List.getLast?_eq_none_iff.mp hg) h
  | some b => rfl

theorem rotateStep_over_ne_noRotate (content : List Nat)
    (hlen : SIZE_LIMIT < content.length) : rotateStep content ≠ .noRotate := by
  unfold rotateStep
  rw [if_neg (Nat.not_le.mpr hlen)]
  by_cases hb : isCharBoundary content (rotKeepFrom content) = true <;> simp [hb]

theorem rotateStep_rotated_inv (content r : List Nat)
    (hlen : SIZE_LIMIT < content.length)
    (hlast : content.getLast? = some 10)
    (hrot : rotateStep content = .rotated r) :
    ∃ k, content[k]? = some 10 ∧ r = content.drop (k + 1) ∧
      r.length ≤ SIZE_LIMIT := by
  have hMB : MB = 1048576 := rfl
  have hSL : SIZE_LIMIT = 5242880 := rfl
  unfold rotateStep at hrot
  rw [if_neg (Nat.not_le.mpr hlen)] at hrot
  by_cases hb : isCharBoundary content (rotKeepFrom content) = true
  · rw [if_pos hb] at hrot
    have hkf : rotKeepFrom content = content.length - MB := rfl
    have hdne : content.drop (rotKeepFrom content) ≠ [] := by
      intro hnil
      have hlend := List.length_drop (rotKeepFrom content) content
      rw [hnil] at hlend
      simp only [List.length_nil] at hlend
      rw [hkf] at hlend
      omega
    have hmem : 10 ∈ content.drop (rotKeepFrom content) := by
      have hgl := getLast?_drop_of_ne_nil content (rotKeepFrom content) hdne
      rw [hlast, List.getLast?_eq_getElem?] at hgl
      exact List.getElem?_mem hgl
    obtain ⟨i, hfi⟩ := findNewline_of_mem _ hmem
    have hstart : rotStart content = rotKeepFrom content + i + 1 := by
      rw [rotStart, hfi]
      rfl
    rw [hstart] at hrot
    have hr : r = content.drop (rotKeepFrom content + i + 1) :=
      (RotOutcome.rotated.inj hrot).symm
    obtain ⟨h10, _⟩ := findNewline_some _ _ hfi
    rw [List.getElem?_drop] at h10
    refine ⟨rotKeepFrom content + i, h10, hr, ?_⟩
    rw [hr, List.length_drop, hkf]
    omega
  · rw [if_neg hb] at hrot
    simp at hrot

/-! ## Helper lemmas on fault-free runs of `debug_bridge_log` -/

theorem append_ok_run (j : Json) (c0 : List Nat)
    (h : (c0 ++ utf8Bytes (renderEntry j)).length ≤ SIZE_LIMIT) :
    debug_bridge_log (.ok j) noFaults ⟨some c0⟩ =
      (.ok, ⟨some (c0 ++ utf8Bytes (renderEntry j))⟩) := by
  simp only [debug_bridge_log, noFaults, Option.getD_some]
  rw [if_pos h]

theorem run_over_exec (j : Json) (c0 r : List Nat)
    (hgt : SIZE_LIMIT < (c0 ++ utf8Bytes (renderEntry j)).length)
    (hrot : rotateStep (c0 ++ utf8Bytes (renderEntry j)) = .rotated r) :
    debug_bridge_log (.ok j) noFaults ⟨some c0⟩ = (.ok, ⟨some r⟩) := by
  have hle : ¬ (c0 ++ utf8Bytes (renderEntry j)).length ≤ SIZE_LIMIT :=
    Nat.not_le.mpr hgt
  simp only [debug_bridge_log, noFaults, Option.getD_some]
  rw [if_neg hle, hrot]

theorem run_ok_over (parsed : Json) (faults : FsFaults) (c0 : List Nat)
    (st' : FsState)
    (hrun : debug_bridge_log (.ok parsed) faults ⟨some c0⟩ = (.ok, st'))
    (hover : SIZE_LIMIT < (c0 ++ utf8Bytes (renderEntry parsed)).length) :
    ∃ r, rotateStep (c0 ++ utf8Bytes (renderEntry parsed)) = .rotated r ∧
      st' = ⟨some r⟩ := by
  obtain ⟨f1, f2, f3, f4, f5, f6⟩ := faults
  cases f1 with
  | some e => simp [debug_bridge_log] at hrun
  | none =>
  cases f2 with
  | some e => simp [debug_bridge_log] at hrun
  | none =>
  cases f3 with
  | some e => simp [debug_bridge_log] at hrun
  | none =>
  cases f4 with
  | some e => simp [debug_bridge_log] at hrun
  | none =>
  simp only [debug_bridge_log, Option.getD_some] at hrun
  rw [if_neg (Nat.not_le.mpr hover)] at hrun
  cases f5 with
  | some e => simp at hrun
  | none =>
  cases hrot : rotateStep (c0 ++ utf8Bytes (renderEntry parsed)) with
  | noRotate => exact absurd hrot (rotateStep_over_ne_noRotate _ hover)
  | panic => rw [hrot] at hrun; simp at hrun
  | rotated r =>
    rw [hrot] at hrun
    cases f6 with
    | some e => simp at hrun
    | none =>
      simp only [Prod.mk.injEq, true_and] at hrun
      exact ⟨r, rfl, hrun.symm⟩

/-! ## Concrete evaluation lemmas for the large witnesses -/

theorem findNewline_rep_none (n : Nat) :
    findNewline (List.replicate n 97) = none := by
  induction n with
  | zero => rfl
  | succ n ih => simp [List.replicate_succ, findNewline, ih]

theorem findNewline_rep_nl (n : Nat) :
    findNewline (List.replicate n 97 ++ [10]) = some n := by
  induction n with
  | zero => rfl
  | succ n ih => simp [List.replicate_succ, findNewline, ih]

theorem utf8_rep_a (n : Nat) :
    utf8Bytes ⟨List.replicate n 'a'⟩ = List.replicate n 97 := by
  induction n with
  | zero => rfl
  | succ n ih =>
    show (List.replicate (n + 1) 'a').flatMap utf8EncodeCharNat = _
    rw [List.replicate_succ, List.flatMap_cons,
      show utf8EncodeCharNat 'a' = [97] from by decide]
    rw [show (List.replicate n 'a').flatMap utf8EncodeCharNat =
      List.replicate n 97 from ih]
    rfl

theorem renderEntry_msg (m : String) :
    renderEntry (Json.obj [("message", Json.str m)]) = "[] LOG: " ++ (m ++ "\n") := by
  unfold renderEntry
  simp only [Json.index, List.find?]
  rw [show (("message" : String) == "level") = false from by decide,
    show (("message" : String) == "message") = true from by decide,
    show (("message" : String) == "timestamp") = false from by decide,
    show (("message" : String) == "source") = false from by decide,
    show (("message" : String) == "stack") = false from by decide]
  simp only [Json.asStr, Option.getD_some, Option.getD_none]
  rw [show ("[" ++ "" ++ "] " ++ strToUpper "log" ++ ": " : String) = "[] LOG: "
    from by decide]
  exact strAppend_assoc _ m "\n"

theorem isCharBoundary_rep (n i : Nat) :
    isCharBoundary (List.replicate n 97) i = true := by
  rw [isCharBoundary, List.getElem?_replicate]
  by_cases h : i < n
  · rw [if_pos h]; rfl
  · rw [if_neg h]

theorem rotate_rep_eval :
    rotateStep (List.replicate 5242881 97) = .rotated (List.replicate 1048576 97) := by
  have hkf : rotKeepFrom (List.replicate 5242881 97) = 4194305 := by
    rw [rotKeepFrom, List.length_replicate]
    decide
  have hstart : rotStart (List.replicate 5242881 97) = 4194305 := by
    rw [rotStart, hkf, List.drop_replicate, findNewline_rep_none]
    rfl
  unfold rotateStep
  rw [if_neg (by rw [List.length_replicate]; decide)]
  rw [if_pos (by rw [hkf]; exact isCharBoundary_rep _ _)]
  rw [hstart, List.drop_replicate,
    show (5242881:Nat) - 4194305 = 1048576 from by decide]

theorem bytes_bigEvent :
    utf8Bytes (renderEntry bigEvent) =
      [91, 93, 32, 76, 79, 71, 58, 32] ++ (List.replicate 6291456 97 ++ [10]) := by
  rw [show bigEvent = Json.obj [("message", Json.str bigMessage)] from rfl,
    renderEntry_msg, utf8Bytes_append, utf8Bytes_append]
  rw [show bigMessage = (⟨List.replicate 6291456 'a'⟩ : String) from rfl, utf8_rep_a]
  rfl

theorem rotate_bigBytes :
    rotateStep ([91, 93, 32, 76, 79, 71, 58, 32] ++
      (List.replicate 6291456 97 ++ [10])) = .rotated [] := by
  have hlen : ([91, 93, 32, 76, 79, 71, 58, 32] ++
      (List.replicate (6291456:Nat) 97 ++ [10])).length = 6291465 := by
    rw [List.length_append, List.length_append, List.length_replicate]
    rfl
  have hkf : rotKeepFrom ([91, 93, 32, 76, 79, 71, 58, 32] ++
      (List.replicate 6291456 97 ++ [10])) = 5242889 := by
    rw [rotKeepFrom, hlen]
    decide
  have hdrop : ([91, 93, 32, 76, 79, 71, 58, 32] ++
      (List.replicate (6291456:Nat) 97 ++ [10])).drop 5242889 =
      List.replicate 1048575 97 ++ [10] := by
    rw [show (5242889:Nat) =
      ([91, 93, 32, 76, 79, 71, 58, 32] : List Nat).length + 5242881 from by decide]
    rw [List.drop_append]
    rw [List.drop_append_of_le_length (by rw [List.length_replicate]; decide)]
    rw [List.drop_replicate,
      show (6291456:Nat) - 5242881 = 1048575 from by decide]
  have hb : isCharBoundary ([91, 93, 32, 76, 79, 71, 58, 32] ++
      (List.replicate 6291456 97 ++ [10])) 5242889 = true := by
    rw [isCharBoundary]
    rw [List.getElem?_append_right
      (by decide : ([91, 93, 32, 76, 79, 71, 58, 32] : List Nat).length ≤ 5242889)]
    rw [show (5242889:Nat) - ([91, 93, 32, 76, 79, 71, 58, 32] : List Nat).length =
      5242881 from by decide]
    rw [List.getElem?_append_left (by rw [List.length_replicate]; decide)]
    rw [List.getElem?_replicate_of_lt (by decide : (5242881:Nat) < 6291456)]
    rfl
  have hstart : rotStart ([91, 93, 32, 76, 79, 71, 58, 32] ++
      (List.replicate 6291456 97 ++ [10])) = 6291465 := by
    rw [rotStart, hkf, hdrop, findNewline_rep_nl]
    rfl
  unfold rotateStep
  rw [if_neg (by rw [hlen]; decide)]
  rw [if_pos (by rw [hkf]; exact hb)]
  rw [hstart, List.drop_eq_nil_of_le (by rw [hlen])]

theorem run_bigEvent :
    debug_bridge_log (.ok bigEvent) noFaults ⟨some []⟩ = (.ok, ⟨some []⟩) := by
  apply run_over_exec
  · rw [List.nil_append, bytes_bigEvent, List.length_append, List.length_append,
      List.length_replicate]
    decide
  · rw [List.nil_append, bytes_bigEvent]
    exact rotate_bigBytes

theorem run_panic_exec (j : Json) (c0 : List Nat)
    (hgt : SIZE_LIMIT < (c0 ++ utf8Bytes (renderEntry j)).length)
    (hrot : rotateStep (c0 ++ utf8Bytes (renderEntry j)) = .panic) :
    debug_bridge_log (.ok j) noFaults ⟨some c0⟩ =
      (.panicked, ⟨some (c0 ++ utf8Bytes (renderEntry j))⟩) := by
  have hle : ¬ (c0 ++ utf8Bytes (renderEntry j)).length ≤ SIZE_LIMIT :=
    Nat.not_le.mpr hgt
  simp only [debug_bridge_log, noFaults, Option.getD_some]
  rw [if_neg hle, hrot]

theorem csf_getElem : continuationSplitFile[4194305]? = some 169 := by
  rw [continuationSplitFile]
  rw [List.getElem?_append_right (by rw [List.length_replicate]; decide)]
  rw [show (4194305:Nat) - (List.replicate (4194304:Nat) 97).length = 0 + 1 by
    rw [List.length_replicate]]
  rw [List.getElem?_cons_succ, List.getElem?_cons_zero]

theorem csf_len : continuationSplitFile.length = 5242872 := by
  rw [continuationSplitFile, List.length_append, List.length_replicate,
    List.length_cons, List.length_cons, List.length_append, List.length_replicate]
  rfl

theorem csf_run_len :
    (continuationSplitFile ++ utf8Bytes (renderEntry (Json.obj []))).length =
      5242881 := by
  rw [List.length_append,
    show utf8Bytes (renderEntry (Json.obj [])) = [91, 93, 32, 76, 79, 71, 58, 32, 10]
      from by decide, csf_len]
  rfl

theorem rotate_csf :
    rotateStep (continuationSplitFile ++ utf8Bytes (renderEntry (Json.obj []))) =
      .panic := by
  have hcsflen : continuationSplitFile.length = 5242872 := csf_len
  have hlen : (continuationSplitFile ++ utf8Bytes (renderEntry (Json.obj []))).length =
      5242881 := csf_run_len
  have hkf : rotKeepFrom (continuationSplitFile ++ utf8Bytes (renderEntry (Json.obj []))) =
      4194305 := by
    rw [rotKeepFrom, hlen]
    decide
  have hb : isCharBoundary (continuationSplitFile ++ utf8Bytes (renderEntry (Json.obj [])))
      4194305 = false := by
    rw [isCharBoundary]
    rw [List.getElem?_append_left (by rw [hcsflen]; decide), csf_getElem]
    rfl
  unfold rotateStep
  rw [if_neg (by rw [hlen]; decide)]
  rw [if_neg (by rw [hkf, hb]; decide)]

/-! ## Claim theorems -/

/-- C1: for every payload that parses as JSON, the rendered entry is exactly
a first line `[<timestamp>] <LEVEL-UPPERCASED>: <message>` (level defaulting
to `"log"`, message and timestamp defaulting to the empty string), then a
line `  at <source>` if source is present, then one line per line of the
stack text each prefixed with two spaces, the lines joined by single
newlines and the whole entry terminated by exactly one trailing newline
(`renderEntrySpec`); and this rendered entry is exactly what a fault-free
append writes to the log file. -/
theorem serq_C1_entry_format (parsed : Json) :
    renderEntry parsed = renderEntrySpec parsed ∧
    ∀ c0 : List Nat,
      (c0 ++ utf8Bytes (renderEntry parsed)).length ≤ SIZE_LIMIT →
      debug_bridge_log (.ok parsed) noFaults ⟨some c0⟩ =
        (.ok, ⟨some (c0 ++ utf8Bytes (renderEntry parsed))⟩) := by
  constructor
  · exact assemble_eq ("[" ++ ((parsed.index "timestamp").asStr).getD "" ++ "] " ++
      strToUpper (((parsed.index "level").asStr).getD "log") ++ ": " ++
      ((parsed.index "message").asStr).getD "")
      ((parsed.index "source").asStr) ((parsed.index "stack").asStr)
  · intro c0 h
    exact append_ok_run parsed c0 h

/-- Witness for C1 at a concrete fully-populated event. -/
theorem serq_C1_entry_format_witness :
    renderEntry exEvent = renderEntrySpec exEvent ∧
    debug_bridge_log (.ok exEvent) noFaults ⟨some []⟩ =
      (.ok, ⟨some ([] ++ utf8Bytes (renderEntry exEvent))⟩) :=
  ⟨(serq_C1_entry_format exEvent).1,
    (serq_C1_entry_format exEvent).2 [] (by decide)⟩

/-- C2 counterexample: on a file of `5 MiB + 1` bytes that contains no
newline at all, the code retains the final 1 MiB rather than truncating to
empty, refuting the claim that a missing newline means keep-from is set to
end of file (the source has `unwrap_or(keep_from)`, not end-of-file). -/
theorem serq_C2_counterexample :
    rotateStep (List.replicate 5242881 97) = .rotated (List.replicate 1048576 97) ∧
    List.replicate (1048576:Nat) 97 ≠ [] := by
  refine ⟨rotate_rep_eval, fun h => ?_⟩
  have h2 := congrArg List.length h
  rw [List.length_replicate, List.length_nil] at h2
  exact absurd h2 (by decide)

/-- C2 (amended): the rotate step runs only when the file size is strictly
above 5 MiB; when it runs (and the cut point is a char boundary), it keeps
from `max(0, len - 1 MiB)` advanced to just after the first newline at or
after that offset, and when no such newline exists it keeps from the
computed offset itself (possibly mid-line) rather than truncating to empty;
the file is overwritten with exactly the retained suffix. -/
theorem serq_C2_rotation_amended (content : List Nat) :
    (content.length ≤ SIZE_LIMIT → rotateStep content = .noRotate) ∧
    (SIZE_LIMIT < content.length →
      isCharBoundary content (content.length - MB) = true →
      (∃ j, content.length - MB ≤ j ∧ content[j]? = some 10 ∧
          (∀ i, content.length - MB ≤ i → i < j → content[i]? ≠ some 10) ∧
          rotateStep content = .rotated (content.drop (j + 1))) ∨
        ((∀ i, content.length - MB ≤ i → content[i]? ≠ some 10) ∧
          rotateStep content = .rotated (content.drop (content.length - MB)))) := by
  constructor
  · intro h
    unfold rotateStep
    rw [if_pos h]
  · intro hgt hb
    have hkf : rotKeepFrom content = content.length - MB := rfl
    cases hf : findNewline (content.drop (content.length - MB)) with
    | some i =>
      left
      obtain ⟨h10, hmin⟩ := findNewline_some _ _ hf
      rw [List.getElem?_drop] at h10
      refine ⟨content.length - MB + i, Nat.le_add_right _ _, h10, ?_, ?_⟩
      · intro i' hge hlt
        have hd := hmin (i' - (content.length - MB)) (by omega)
        rw [List.getElem?_drop,
          show content.length - MB + (i' - (content.length - MB)) = i'
            from by omega] at hd
        exact hd
      · have hstart : rotStart content = content.length - MB + i + 1 := by
          rw [rotStart, hkf, hf]
          rfl
        unfold rotateStep
        rw [if_neg (Nat.not_le.mpr hgt), if_pos (by rw [hkf]; exact hb), hstart]
    | none =>
      right
      have hnone := findNewline_none _ hf
      constructor
      · intro i hge
        by_cases hlt : i < content.length
        · cases hgi : content[i]? with
          | none => simp
          | some b =>
            have hmem : b ∈ content.drop (content.length - MB) := by
              refine List.getElem?_mem (n := i - (content.length - MB)) ?_
              rw [List.getElem?_drop,
                show content.length - MB + (i - (content.length - MB)) = i
                  from by omega]
              exact hgi
            intro hc
            exact hnone b hmem (Option.some.inj (hgi ▸ hc))
        · rw [List.getElem?_eq_none (by omega)]
          simp
      · have hstart : rotStart content = content.length - MB := by
          rw [rotStart, hkf, hf, Option.map_none', Option.getD_none]
        unfold rotateStep
        rw [if_neg (Nat.not_le.mpr hgt), if_pos (by rw [hkf]; exact hb), hstart]

/-- Witness for C2 (amended): the below-ceiling branch at the empty file and
the no-newline branch at a newline-free oversized file. -/
theorem serq_C2_rotation_amended_witness :
    rotateStep ([] : List Nat) = .noRotate ∧
    rotateStep (List.replicate 5242881 97) = .rotated (List.replicate 1048576 97) := by
  constructor
  · exact (serq_C2_rotation_amended []).1 (by decide)
  · have h := (serq_C2_rotation_amended (List.replicate 5242881 97)).2
      (by rw [List.length_replicate]; decide)
      (by rw [List.length_replicate]; exact isCharBoundary_rep _ _)
    rcases h with ⟨j, _, hj, _, _⟩ | ⟨_, heq⟩
    · exfalso
      rw [List.getElem?_replicate] at hj
      by_cases hlt : j < 5242881
      · rw [if_pos hlt] at hj
        exact absurd (Option.some.inj hj) (by decide)
      · rw [if_neg hlt] at hj
        exact Option.noConfusion hj
    · rw [heq, List.length_replicate, List.drop_replicate,
        show (5242881:Nat) - (5242881 - MB) = 1048576 from by decide]

/-- C3: for any sequence of appends that pushes the log file strictly above
5 MiB, if the triggering append returns successfully then the retained file
is at most 5 MiB (in fact at most 1 MiB) and begins immediately after a
newline of the pre-rotation content — the first retained character starts a
line. -/
theorem serq_C3_rotation_invariant (entries : List Json) (parsed : Json)
    (faults : FsFaults) (c0 : List Nat) (st' : FsState)
    (_hbuilt : c0 ++ utf8Bytes (renderEntry parsed) = logContents entries)
    (hover : SIZE_LIMIT < (c0 ++ utf8Bytes (renderEntry parsed)).length)
    (hrun : debug_bridge_log (.ok parsed) faults ⟨some c0⟩ = (.ok, st')) :
    ∃ c', st'.file = some c' ∧ c'.length ≤ SIZE_LIMIT ∧
      ∃ k, (c0 ++ utf8Bytes (renderEntry parsed))[k]? = some 10 ∧
        c' = (c0 ++ utf8Bytes (renderEntry parsed)).drop (k + 1) := by
  obtain ⟨r, hrot, rfl⟩ := run_ok_over parsed faults c0 st' hrun hover
  have hlast : (c0 ++ utf8Bytes (renderEntry parsed)).getLast? = some 10 := by
    rw [List.getLast?_append, utf8_renderEntry_last]
    rfl
  obtain ⟨k, h10, hr, hle⟩ := rotateStep_rotated_inv _ r hover hlast hrot
  exact ⟨r, rfl, hle, k, h10, hr⟩

/-- Witness for C3: a single six-MiB append onto an empty file rotates down
to a line-aligned suffix (here the empty suffix after the final newline). -/
theorem serq_C3_rotation_invariant_witness :
    ([] ++ utf8Bytes (renderEntry bigEvent) = logContents [bigEvent]) ∧
    SIZE_LIMIT < ([] ++ utf8Bytes (renderEntry bigEvent)).length ∧
    ∃ c', FsState.file ⟨some []⟩ = some c' ∧ c'.length ≤ SIZE_LIMIT ∧
      ∃ k, ([] ++ utf8Bytes (renderEntry bigEvent))[k]? = some 10 ∧
        c' = ([] ++ utf8Bytes (renderEntry bigEvent)).drop (k + 1) := by
  have hbuilt : [] ++ utf8Bytes (renderEntry bigEvent) = logContents [bigEvent] := by
    rw [List.nil_append, logContents_cons,
      show logContents [] = [] from rfl, List.append_nil]
  have hover : SIZE_LIMIT < ([] ++ utf8Bytes (renderEntry bigEvent)).length := by
    rw [List.nil_append, bytes_bigEvent, List.length_append, List.length_append,
      List.length_replicate]
    decide
  exact ⟨hbuilt, hover,
    serq_C3_rotation_invariant [bigEvent] bigEvent noFaults [] ⟨some []⟩
      hbuilt hover run_bigEvent⟩

/-- C4: when the home directory resolves, a payload that fails to parse
makes append return the parse failure and leave the file state untouched —
in particular no file is created or written, since parsing precedes every
file operation. -/
theorem serq_C4_parse_failure (e : String) (faults : FsFaults) (st : FsState)
    (hhome : faults.homeErr = none) :
    debug_bridge_log (.error e) faults st = (.err e, st) := by
  obtain ⟨f1, f2, f3, f4, f5, f6⟩ := faults
  cases f1 with
  | some e2 => exact absurd hhome (by simp)
  | none => rfl

/-- Witness for C4 on an absent file with a concrete parse-error text. -/
theorem serq_C4_parse_failure_witness :
    noFaults.homeErr = none ∧
    debug_bridge_log (.error "expected value at line 1 column 1") noFaults ⟨none⟩ =
      (.err "expected value at line 1 column 1", ⟨none⟩) :=
  ⟨rfl, serq_C4_parse_failure "expected value at line 1 column 1" noFaults ⟨none⟩ rfl⟩

/-- C5 counterexample: the payload `5` is valid JSON but not an object with
string fields, yet append succeeds and writes the defaults-rendered entry
`[] LOG: \n` instead of reporting a caller error — `serde_json::Value`
accepts any JSON document and every field access falls back to a default. -/
theorem serq_C5_counterexample :
    debug_bridge_log (.ok (Json.num 5)) noFaults ⟨some []⟩ =
      (.ok, ⟨some (utf8Bytes "[] LOG: \n")⟩) := by
  have h := append_ok_run (Json.num 5) [] (by decide)
  rw [List.nil_append] at h
  rw [h, show renderEntry (Json.num 5) = "[] LOG: \n" from by decide]

/-- C5 (amended): only payloads that fail JSON parsing are caller errors;
every successfully parsed document — object or not — is accepted, with
absent or non-string fields replaced by their defaults, and the rendered
entry is appended. -/
theorem serq_C5_any_json_accepted (j : Json) (c0 : List Nat)
    (h : (c0 ++ utf8Bytes (renderEntry j)).length ≤ SIZE_LIMIT) :
    (debug_bridge_log (.ok j) noFaults ⟨some c0⟩).1 = .ok ∧
    (debug_bridge_log (.ok j) noFaults ⟨some c0⟩).2 =
      ⟨some (c0 ++ utf8Bytes (renderEntry j))⟩ := by
  rw [append_ok_run j c0 h]
  exact ⟨rfl, rfl⟩

/-- Witness for C5 (amended) at the non-object payload `5`. -/
theorem serq_C5_any_json_accepted_witness :
    (([] : List Nat) ++ utf8Bytes (renderEntry (Json.num 5))).length ≤ SIZE_LIMIT ∧
    (debug_bridge_log (.ok (Json.num 5)) noFaults ⟨some []⟩).1 = .ok :=
  ⟨by decide, (serq_C5_any_json_accepted (Json.num 5) [] (by decide)).1⟩

/-- C6: after storing the empty string, get observes absent and has observes
false, exactly as on a store where the secret was never set. -/
theorem serq_C6_empty_is_absent (st : KeyringState) :
    get_api_key (keyringRead (keyringSet st "")) = .ok none ∧
    has_api_key (keyringRead (keyringSet st "")) = .ok false ∧
    get_api_key (keyringRead (keyringSet st "")) = get_api_key (keyringRead none) ∧
    has_api_key (keyringRead (keyringSet st "")) = has_api_key (keyringRead none) :=
  ⟨rfl, rfl, rfl, rfl⟩

/-- C7: for every non-empty string, set followed by get returns the value
and has returns true, over the verbatim-storing capability model. -/
theorem serq_C7_roundtrip (st : KeyringState) (v : String) (hv : v ≠ "") :
    (set_api_key st v).1 = .ok () ∧
    get_api_key (keyringRead (set_api_key st v).2) = .ok (some v) ∧
    has_api_key (keyringRead (set_api_key st v).2) = .ok true := by
  refine ⟨rfl, ?_, ?_⟩
  · show get_api_key (.ok v) = .ok (some v)
    simp [get_api_key, hv]
  · show has_api_key (.ok v) = .ok true
    simp only [has_api_key]
    rw [show (v == "") = false from beq_eq_false_iff_ne.mpr hv]
    rfl

/-- Witness for C7 at the value `abc123` on a fresh store. -/
theorem serq_C7_roundtrip_witness :
    ("abc123" : String) ≠ "" ∧
    get_api_key (keyringRead (set_api_key none "abc123").2) = .ok (some "abc123") ∧
    has_api_key (keyringRead (set_api_key none "abc123").2) = .ok true :=
  ⟨by decide, (serq_C7_roundtrip none "abc123" (by decide)).2.1,
    (serq_C7_roundtrip none "abc123" (by decide)).2.2⟩

/-- C8: has is true exactly when the capability read succeeds with a
non-empty string; a no-entry read makes both get and has return a successful
absent/false result (so a fresh store reads as absent/false); and any other
capability failure is surfaced by both as an error with the embedded
cause. -/
theorem serq_C8_read_contract (read : KeyringReadResult) :
    (has_api_key read = .ok true ↔ ∃ s, read = .ok s ∧ s ≠ "") ∧
    (read = .noEntry → get_api_key read = .ok none ∧ has_api_key read = .ok false) ∧
    (get_api_key (keyringRead none) = .ok none ∧
      has_api_key (keyringRead none) = .ok false) ∧
    (∀ e, read = .err e →
      get_api_key read = .error ("Failed to retrieve API key: " ++ e) ∧
      has_api_key read = .error ("Failed to check API key: " ++ e)) := by
  refine ⟨?_, ?_, ⟨rfl, rfl⟩, ?_⟩
  · cases read with
    | ok s =>
      constructor
      · intro h
        refine ⟨s, rfl, fun hs => ?_⟩
        subst hs
        simp [has_api_key] at h
      · rintro ⟨s', hs', hne⟩
        obtain rfl : s = s' := KeyringReadResult.ok.inj hs'
        show has_api_key (.ok s) = .ok true
        simp only [has_api_key]
        rw [show (s == "") = false from beq_eq_false_iff_ne.mpr hne]
        rfl
    | noEntry =>
      constructor
      · intro h
        simp [has_api_key] at h
      · rintro ⟨s, hs, -⟩
        exact KeyringReadResult.noConfusion hs
    | err e =>
      constructor
      · intro h
        simp [has_api_key] at h
      · rintro ⟨s, hs, -⟩
        exact KeyringReadResult.noConfusion hs
  · intro h
    subst h
    exact ⟨rfl, rfl⟩
  · intro e he
    subst he
    exact ⟨rfl, rfl⟩

/-- Witness for C8 at a successful read, a no-entry read and a failing
read. -/
theorem serq_C8_read_contract_witness :
    has_api_key (.ok "k") = .ok true ∧
    (get_api_key .noEntry = .ok none ∧ has_api_key .noEntry = .ok false) ∧
    (get_api_key (.err "backend unavailable") =
        .error ("Failed to retrieve API key: " ++ "backend unavailable") ∧
      has_api_key (.err "backend unavailable") =
        .error ("Failed to check API key: " ++ "backend unavailable")) :=
  ⟨(serq_C8_read_contract (.ok "k")).1.mpr ⟨"k", rfl, by decide⟩,
    (serq_C8_read_contract .noEntry).2.1 rfl,
    (serq_C8_read_contract (.err "backend unavailable")).2.2.2 _ rfl⟩

/-- C9 (refuting the never-aborts claim): on a pre-existing log of
`5 MiB - 8` valid UTF-8 bytes whose rotation cut point falls on the second
byte of a two-byte character, one ordinary append drives the rotation slice
`&content[keep_from..]` onto a non-char-boundary and the process aborts
instead of returning a failure value. -/
theorem serq_C9_rotation_aborts :
    debug_bridge_log (.ok (Json.obj [])) noFaults ⟨some continuationSplitFile⟩ =
      (.panicked,
        ⟨some (continuationSplitFile ++ utf8Bytes (renderEntry (Json.obj [])))⟩) := by
  apply run_panic_exec
  · rw [csf_run_len]
    decide
  · exact rotate_csf

/-- C10: an execution in which the entry is fully appended and yet append
returns a failure: the post-write metadata read fails, the error is
surfaced, and the appended entry persists — so an append failure does not
imply the log file is unchanged. -/
theorem serq_C10_failure_after_write :
    debug_bridge_log (.ok (Json.obj []))
        ⟨none, none, none, some "disk error", none, none⟩ ⟨some [65]⟩ =
      (.err "disk error", ⟨some ([65] ++ utf8Bytes (renderEntry (Json.obj [])))⟩) ∧
    [65] ++ utf8Bytes (renderEntry (Json.obj [])) ≠ [65] := by
  exact ⟨by decide, by decide⟩

end SERQ
